import Mathlib

/-
  Verification of the chain-notifier streaming-subscription adapter
  (chainnotifier_client.go).

  Embedding notes.  Each subscription worker is a goroutine that pulls
  framed events off a gRPC stream and writes to an output channel and an
  error channel.  We model a finite stream history as a
  `List (Except String ev)`: a `.error e` item is a `Recv` call returning
  a stream error, a `.ok ev` item is a successfully received event.  A
  worker run over such a history yields a trace of observable actions:
  values written to the output channel, errors written to the error
  channel, and the deferred WaitGroup decrement (`wgDone`) that the Go
  code runs on every exit path.  A history whose processing ends without
  a terminal action models a worker that is still blocked in `Recv`; its
  trace has no `wgDone`.

  Machine integers: Go `uint32` fields are `Nat` (values < 2^32 by
  construction in real traffic, but conversions are modelled with the
  explicit mod-2^32 reinterpretation the code performs), Go `int32`
  values are `Int`.  Byte slices are `List Nat`.

  The raw-transaction decoder (`decodeTx`) is an external collaborator of
  this core; workers are parameterised over it.
-/

namespace LndClient

/-- Byte slices from the wire are modelled as lists of naturals. -/
abbrev Bytes := List Nat

/-- Go conversion `uint32(x)` applied to an `int32` value `x`:
reinterpretation modulo 2^32. -/
def uint32OfInt32 (x : Int) : Nat := (x % 4294967296).toNat

/-- Go conversion `int32(u)` applied to a `uint32` value `u`:
reinterpretation modulo 2^32 into the signed range. -/
def int32OfUint32 (u : Nat) : Int :=
  if u % 4294967296 < 2147483648 then ((u % 4294967296 : Nat) : Int)
  else ((u % 4294967296 : Nat) : Int) - 4294967296

/-- Modelled from the spec: `chainhash.NewHash` (the hash transcoder, a
library call whose code is not part of this repository) validates that
its input is exactly 32 bytes, returning the hash on success and a
decode error otherwise. -/
def newHash (b : Bytes) : Except String Bytes :=
  if b.length = 32 then .ok b else .error "invalid hash length"

/-- One observable action of a subscription worker: a value written to
the output channel, an error written to the error channel, or the
deferred WaitGroup decrement run when the goroutine exits. -/
inductive Act (α : Type) where
  | out (a : α)
  | err (e : String)
  | wgDone
  deriving DecidableEq, Repr

/-- Values written to the output channel, in order. -/
def outs {α : Type} : List (Act α) → List α
  | [] => []
  | .out a :: t => a :: outs t
  | .err _ :: t => outs t
  | .wgDone :: t => outs t

/-- Errors written to the error channel, in order. -/
def errs {α : Type} : List (Act α) → List String
  | [] => []
  | .out _ :: t => errs t
  | .err e :: t => e :: errs t
  | .wgDone :: t => errs t

/-- Number of WaitGroup decrements in a trace. -/
def dones {α : Type} : List (Act α) → Nat
  | [] => 0
  | .out _ :: t => dones t
  | .err _ :: t => dones t
  | .wgDone :: t => 1 + dones t

/-- Wire structure `chainrpc.ConfDetails`: the payload of a confirmed
event. -/
structure ConfDetails where
  rawTx : Bytes
  blockHash : Bytes
  blockHeight : Nat
  txIndex : Nat
  deriving DecidableEq, Repr

/-- The tagged variant carried by a `chainrpc.ConfEvent`: the `Conf`
variant, the `Reorg` variant, a nil (unset) `Event` field, or a value of
some unexpected type (the `default` branch of the switch). -/
inductive ConfEvent where
  | conf (c : ConfDetails)
  | reorg
  | unset
  | unexpected
  deriving DecidableEq, Repr

/-- Domain structure `chainntnfs.TxConfirmation` as populated by the
code (block height, decoded block hash, decoded transaction, index of
the transaction in the block), parameterised over the decoded
transaction type. -/
structure TxConfirmation (T : Type) where
  blockHeight : Nat
  blockHash : Bytes
  tx : T
  txIndex : Nat
  deriving DecidableEq, Repr

/-- The confirmation-subscription worker loop of
`RegisterConfirmationsNtfn`: classify each received event by its
variant.  A `Conf` variant decodes the raw transaction, then the block
hash, and on success writes one `TxConfirmation` and returns; a `Reorg`
variant is skipped; a nil variant writes the error "conf event empty"
and returns; any other variant writes the error
"conf event has unexpected type" and returns.  A stream error is
forwarded to the error channel and the worker returns. -/
def confWorker {T : Type} (decodeTx : Bytes → Except String T) :
    List (Except String ConfEvent) → List (Act (TxConfirmation T))
  | [] => []
  | .error e :: _ => [.err e, .wgDone]
  | .ok ev :: rest =>
    match ev with
    | .conf c =>
      match decodeTx c.rawTx with
      | .error e => [.err e, .wgDone]
      | .ok tx =>
        match newHash c.blockHash with
        | .error e => [.err e, .wgDone]
        | .ok bh =>
          [.out { blockHeight := c.blockHeight, blockHash := bh,
                  tx := tx, txIndex := c.txIndex }, .wgDone]
    | .reorg => confWorker decodeTx rest
    | .unset => [.err "conf event empty", .wgDone]
    | .unexpected => [.err "conf event has unexpected type", .wgDone]

/-- C1: the confirmation worker classifies each received event by
variant: a confirmed variant (when its transaction and block hash
decode) writes exactly one `TxConfirmation` carrying the decoded
transaction, decoded block hash, block height and transaction index,
then terminates; a reorg variant is skipped and the loop continues; a
nil variant writes exactly one decode error ("conf event empty") and
terminates; any other variant writes exactly one protocol error and
terminates.  A stream of a reorg event then a confirmed event yields
exactly one confirmation and zero errors; a stream of only a nil event
yields exactly one error and zero confirmations. -/
theorem conf_worker_classification {T : Type}
    (decodeTx : Bytes → Except String T) (c : ConfDetails)
    (rest : List (Except String ConfEvent)) (tx : T) (bh : Bytes)
    (hTx : decodeTx c.rawTx = .ok tx) (hBh : newHash c.blockHash = .ok bh) :
    confWorker decodeTx (.ok (.conf c) :: rest) =
      [.out { blockHeight := c.blockHeight, blockHash := bh,
              tx := tx, txIndex := c.txIndex }, .wgDone] ∧
    confWorker decodeTx (.ok .reorg :: rest) = confWorker decodeTx rest ∧
    confWorker decodeTx (.ok .unset :: rest) =
      [.err "conf event empty", .wgDone] ∧
    confWorker decodeTx (.ok .unexpected :: rest) =
      [.err "conf event has unexpected type", .wgDone] ∧
    (outs (confWorker decodeTx [.ok .reorg, .ok (.conf c)]) =
        [{ blockHeight := c.blockHeight, blockHash := bh,
           tx := tx, txIndex := c.txIndex }] ∧
      errs (confWorker decodeTx [.ok .reorg, .ok (.conf c)]) = []) ∧
    (errs (confWorker decodeTx [.ok .unset]) = ["conf event empty"] ∧
      outs (confWorker decodeTx [.ok .unset]) = []) := by
  refine ⟨?_, ?_, ?_, ?_, ⟨?_, ?_⟩, ⟨?_, ?_⟩⟩ <;>
    simp [confWorker, hTx, hBh, outs, errs]

/-- Witness for C1 at concrete inputs: a decoder that succeeds on the
empty byte list and a confirmed event with a 32-byte block hash. -/
theorem conf_worker_classification_witness :
    confWorker (fun b => (Except.ok b.length : Except String Nat))
        [.ok (.conf { rawTx := [], blockHash := List.replicate 32 0,
                      blockHeight := 700000, txIndex := 3 })] =
      [.out { blockHeight := 700000, blockHash := List.replicate 32 0,
              tx := 0, txIndex := 3 }, .wgDone] :=
  (conf_worker_classification
      (fun b => (Except.ok b.length : Except String Nat))
      { rawTx := [], blockHash := List.replicate 32 0,
        blockHeight := 700000, txIndex := 3 }
      [] 0 (List.replicate 32 0) rfl (by simp [newHash])).1

/-- Wire structure `chainrpc.Outpoint` (also standing in for
`wire.OutPoint`): a 32-byte transaction hash and an output index. -/
structure Outpoint where
  hash : Bytes
  index : Nat
  deriving DecidableEq, Repr

/-- Wire structure `chainrpc.SpendDetails`: the payload of a spend
event.  The `SpendingOutpoint` field is a pointer in Go, hence an
`Option` here. -/
structure SpendDetails where
  spendingOutpoint : Option Outpoint
  spendingTxHash : Bytes
  rawSpendingTx : Bytes
  spendingInputIndex : Nat
  spendingHeight : Nat
  deriving DecidableEq, Repr

/-- The tagged variant carried by a `chainrpc.SpendEvent`: the Go code
only tests (via a type assertion) whether the event is the `Spend`
variant; the `Reorg` variant and a nil (unset) `Event` field both fail
that test. -/
inductive SpendEvent where
  | spend (d : SpendDetails)
  | reorg
  | unset
  deriving DecidableEq, Repr

/-- Domain structure `chainntnfs.SpendDetail` as populated by the code,
parameterised over the decoded transaction type.  `spendingHeight` is
`int32(d.SpendingHeight)` in Go, hence an `Int` obtained by sign
reinterpretation. -/
structure SpendDetail (T : Type) where
  spentOutPoint : Outpoint
  spenderTxHash : Bytes
  spenderInputIndex : Nat
  spendingTx : T
  spendingHeight : Int
  deriving DecidableEq, Repr

/-- Result of running `processSpendDetail` on a spend payload.  The Go
closure dereferences `d.SpendingOutpoint` without a nil check, so a nil
outpoint is a runtime panic, not a returned error. -/
inductive ProcResult (T : Type) where
  | panicNilDeref
  | failed (e : String)
  | ok (sd : SpendDetail T)
  deriving DecidableEq, Repr

/-- The `processSpendDetail` closure of `RegisterSpendNtfn`: reads
`d.SpendingOutpoint.Hash` (panicking when the pointer is nil), decodes
the outpoint hash, then the spending transaction hash, then the raw
spending transaction, and on success builds the `SpendDetail`. -/
def processSpendDetail {T : Type} (decodeTx : Bytes → Except String T)
    (d : SpendDetails) : ProcResult T :=
  match d.spendingOutpoint with
  | none => .panicNilDeref
  | some op =>
    match newHash op.hash with
    | .error e => .failed e
    | .ok outpointHash =>
      match newHash d.spendingTxHash with
      | .error e => .failed e
      | .ok txHash =>
        match decodeTx d.rawSpendingTx with
        | .error e => .failed e
        | .ok tx =>
          .ok { spentOutPoint := { hash := outpointHash, index := op.index },
                spenderTxHash := txHash,
                spenderInputIndex := d.spendingInputIndex,
                spendingTx := tx,
                spendingHeight := int32OfUint32 d.spendingHeight }

/-- The spend-subscription worker loop of `RegisterSpendNtfn`.  Events
that are not the `Spend` variant are skipped silently; the first
`Spend` variant is processed and the worker returns (writing the
`SpendDetail` on success or the decode error on failure).  The Boolean
records whether the run ended in a panic (nil `SpendingOutpoint`); the
deferred WaitGroup decrement runs even then. -/
def spendWorker {T : Type} (decodeTx : Bytes → Except String T) :
    List (Except String SpendEvent) → List (Act (SpendDetail T)) × Bool
  | [] => ([], false)
  | .error e :: _ => ([.err e, .wgDone], false)
  | .ok ev :: rest =>
    match ev with
    | .spend d =>
      match processSpendDetail decodeTx d with
      | .panicNilDeref => ([.wgDone], true)
      | .failed e => ([.err e, .wgDone], false)
      | .ok sd => ([.out sd, .wgDone], false)
    | .reorg => spendWorker decodeTx rest
    | .unset => spendWorker decodeTx rest

/-- C2: the spend worker skips every event not tagged with the spend
variant, writing nothing and continuing; the first spend-tagged event
(when its outpoint hash, transaction hash and raw transaction decode)
yields exactly one `SpendDetail` on the 1-buffered output channel,
carrying the spent outpoint, spending transaction hash, spending input
index, decoded spending transaction and spending height, and the worker
terminates.  Three non-spend events followed by one spend event yield
exactly one `SpendDetail` and zero errors. -/
theorem spend_worker_single_shot {T : Type}
    (decodeTx : Bytes → Except String T) (d : SpendDetails) (op : Outpoint)
    (rest : List (Except String SpendEvent)) (oh th : Bytes) (tx : T)
    (hOp : d.spendingOutpoint = some op) (hOh : newHash op.hash = .ok oh)
    (hTh : newHash d.spendingTxHash = .ok th)
    (hTx : decodeTx d.rawSpendingTx = .ok tx) :
    spendWorker decodeTx (.ok .reorg :: rest) = spendWorker decodeTx rest ∧
    spendWorker decodeTx (.ok .unset :: rest) = spendWorker decodeTx rest ∧
    spendWorker decodeTx (.ok (.spend d) :: rest) =
      ([.out { spentOutPoint := { hash := oh, index := op.index },
               spenderTxHash := th,
               spenderInputIndex := d.spendingInputIndex,
               spendingTx := tx,
               spendingHeight := int32OfUint32 d.spendingHeight },
        .wgDone], false) ∧
    (outs (spendWorker decodeTx
        [.ok .reorg, .ok .unset, .ok .reorg, .ok (.spend d)]).1 =
      [{ spentOutPoint := { hash := oh, index := op.index },
         spenderTxHash := th,
         spenderInputIndex := d.spendingInputIndex,
         spendingTx := tx,
         spendingHeight := int32OfUint32 d.spendingHeight }] ∧
      errs (spendWorker decodeTx
        [.ok .reorg, .ok .unset, .ok .reorg, .ok (.spend d)]).1 = []) := by
  refine ⟨?_, ?_, ?_, ?_, ?_⟩ <;>
    simp [spendWorker, processSpendDetail, hOp, hOh, hTh, hTx, outs, errs]

/-- Witness for C2 at concrete inputs: the scenario from the spec with
an all-zero outpoint hash, a 0x11 transaction hash, input index 2 and
spending height 700000. -/
theorem spend_worker_single_shot_witness :
    spendWorker (fun b => (Except.ok b.length : Except String Nat))
        [.ok (.spend { spendingOutpoint := some { hash := List.replicate 32 0, index := 0 },
                       spendingTxHash := List.replicate 32 17,
                       rawSpendingTx := [1, 2],
                       spendingInputIndex := 2,
                       spendingHeight := 700000 })] =
      ([.out { spentOutPoint := { hash := List.replicate 32 0, index := 0 },
               spenderTxHash := List.replicate 32 17,
               spenderInputIndex := 2,
               spendingTx := 2,
               spendingHeight := int32OfUint32 700000 }, .wgDone], false) :=
  (spend_worker_single_shot
      (fun b => (Except.ok b.length : Except String Nat))
      { spendingOutpoint := some { hash := List.replicate 32 0, index := 0 },
        spendingTxHash := List.replicate 32 17,
        rawSpendingTx := [1, 2],
        spendingInputIndex := 2,
        spendingHeight := 700000 }
      { hash := List.replicate 32 0, index := 0 } []
      (List.replicate 32 0) (List.replicate 32 17) 2
      rfl (by simp [newHash]) (by simp [newHash]) rfl).2.2.1

/-- C9: `processSpendDetail` reads the spending outpoint without a nil
check, so a spend event whose `SpendingOutpoint` is absent panics with a
nil dereference instead of returning a decode error: no error is written
to the error channel and no `SpendDetail` is written to the output
channel. -/
theorem process_spend_detail_nil_outpoint_panics {T : Type}
    (decodeTx : Bytes → Except String T) (d : SpendDetails)
    (rest : List (Except String SpendEvent))
    (hOp : d.spendingOutpoint = none) :
    processSpendDetail decodeTx d = .panicNilDeref ∧
    (∀ e : String, processSpendDetail decodeTx d ≠ .failed e) ∧
    spendWorker decodeTx (.ok (.spend d) :: rest) = ([.wgDone], true) ∧
    errs (spendWorker decodeTx (.ok (.spend d) :: rest)).1 = [] ∧
    outs (spendWorker decodeTx (.ok (.spend d) :: rest)).1 = [] := by
  refine ⟨?_, ?_, ?_, ?_, ?_⟩ <;>
    simp [spendWorker, processSpendDetail, hOp, outs, errs]

/-- Witness for C9 at a concrete input: a spend payload with a nil
spending outpoint. -/
theorem process_spend_detail_nil_outpoint_panics_witness :
    processSpendDetail (fun b => (Except.ok b.length : Except String Nat))
        { spendingOutpoint := none, spendingTxHash := [],
          rawSpendingTx := [], spendingInputIndex := 0,
          spendingHeight := 0 } = .panicNilDeref :=
  (process_spend_detail_nil_outpoint_panics
      (fun b => (Except.ok b.length : Except String Nat))
      { spendingOutpoint := none, spendingTxHash := [],
        rawSpendingTx := [], spendingInputIndex := 0, spendingHeight := 0 }
      [] rfl).1

/-- The block-epoch worker loop of `RegisterBlockEpochNtfn`.  For each
received height the worker offers `int32(epoch.Height)` on the
unbuffered output channel in a `select` racing the caller's
cancellation context.  The race is resolved by the oracle `choice`,
indexed by the emit-attempt number `n`: `true` means the send wins and
the value is delivered, `false` means the done branch of the `select`
fires (only possible when the context is cancelled), in which case the
value is dropped and the worker returns.  A stream error is forwarded
to the 1-buffered error channel and the worker returns. -/
def epochWorker (choice : Nat → Bool) :
    Nat → List (Except String Nat) → List (Act Int)
  | _, [] => []
  | _, .error e :: _ => [.err e, .wgDone]
  | n, .ok h :: rest =>
    if choice n then .out (int32OfUint32 h) :: epochWorker choice (n + 1) rest
    else [.wgDone]

/-- C3: when the block-epoch worker has a decoded height ready and the
cancellation branch of the `select` fires (which requires the context to
be done at that emit attempt), the value is dropped, no error is
reported, nothing further is written to either channel, and the worker
exits immediately without processing the rest of the stream. -/
theorem epoch_worker_drop_on_cancel (choice : Nat → Bool) (n h : Nat)
    (rest : List (Except String Nat)) (hCancel : choice n = false) :
    epochWorker choice n (.ok h :: rest) = [.wgDone] ∧
    outs (epochWorker choice n (.ok h :: rest)) = [] ∧
    errs (epochWorker choice n (.ok h :: rest)) = [] := by
  refine ⟨?_, ?_, ?_⟩ <;> simp [epochWorker, hCancel, outs, errs]

/-- Witness for C3 at concrete inputs: the context is already done at
the first emit attempt, height 100 is dropped. -/
theorem epoch_worker_drop_on_cancel_witness :
    epochWorker (fun _ => false) 0 [.ok 100, .ok 101] = [.wgDone] :=
  (epoch_worker_drop_on_cancel (fun _ => false) 0 100 [.ok 101] rfl).1

/-- C7: when the subscription is never cancelled (the send wins every
race), the block-epoch worker delivers exactly the received heights, in
order, each reinterpreted as an `int32`; feeding heights 100, 101, 102
yields exactly the values 100, 101, 102 in order with zero errors. -/
theorem epoch_worker_in_order (choice : Nat → Bool)
    (hAll : ∀ k, choice k = true) (n : Nat) (hs : List Nat) :
    epochWorker choice n (hs.map .ok) =
      hs.map (fun h => .out (int32OfUint32 h)) ∧
    outs (epochWorker choice n ([100, 101, 102].map .ok)) =
      [100, 101, 102] ∧
    errs (epochWorker choice n ([100, 101, 102].map .ok)) = [] := by
  have key : ∀ (m : Nat) (l : List Nat), epochWorker choice m (l.map .ok) =
      l.map (fun h => Act.out (int32OfUint32 h)) := by
    intro m l
    induction l generalizing m with
    | nil => simp [epochWorker]
    | cons h t ih => simp [epochWorker, hAll, ih]
  have e := key n [100, 101, 102]
  simp only [List.map_cons, List.map_nil] at e
  refine ⟨key n hs, ?_, ?_⟩ <;> simp [e, outs, errs, int32OfUint32]

/-- Witness for C7 at concrete inputs: the always-send oracle and the
height sequence 100, 101, 102. -/
theorem epoch_worker_in_order_witness :
    epochWorker (fun _ => true) 0 ([100, 101, 102].map .ok) =
      [100, 101, 102].map (fun h => .out (int32OfUint32 h)) :=
  (epoch_worker_in_order (fun _ => true) (fun _ => rfl) 0 [100, 101, 102]).1

/-- Wire structure `chainrpc.SpendRequest` as built by
`RegisterSpendNtfn`: the caller-supplied `int32` height hint is sent as
`uint32(heightHint)`. -/
structure SpendRequest where
  heightHint : Nat
  outpoint : Option Outpoint
  script : Bytes
  deriving DecidableEq, Repr

/-- Request construction in `RegisterSpendNtfn`: a non-nil outpoint is
copied field by field into the wire outpoint; a nil outpoint is sent as
nil. -/
def mkSpendRequest (outpoint : Option Outpoint) (pkScript : Bytes)
    (heightHint : Int) : SpendRequest :=
  { heightHint := uint32OfInt32 heightHint,
    outpoint := outpoint.map (fun op => { hash := op.hash, index := op.index }),
    script := pkScript }

/-- Wire structure `chainrpc.ConfRequest` as built by
`RegisterConfirmationsNtfn`: both `numConfs` and `heightHint` are sent
as `uint32` reinterpretations; a nil txid pointer is sent as a nil byte
slice. -/
structure ConfRequest where
  script : Bytes
  numConfs : Nat
  heightHint : Nat
  txid : Option Bytes
  deriving DecidableEq, Repr

/-- Request construction in `RegisterConfirmationsNtfn`. -/
def mkConfRequest (txid : Option Bytes) (pkScript : Bytes)
    (numConfs heightHint : Int) : ConfRequest :=
  { script := pkScript,
    numConfs := uint32OfInt32 numConfs,
    heightHint := uint32OfInt32 heightHint,
    txid := txid }

/-- A Go channel as observable at registration time: only its buffer
capacity matters for the model. -/
structure Chan where
  capacity : Nat
  deriving DecidableEq, Repr

/-- The immediate result of one registration operation: the returned
output channel and error channel (`none` models a nil channel), the
immediate error return, whether a worker goroutine was spawned, and how
many times `wg.Add(1)` ran. -/
structure RegisterResult where
  outChan : Option Chan
  errChan : Option Chan
  setupErr : Option String
  workerSpawned : Bool
  wgAdds : Nat
  deriving DecidableEq, Repr

/-- `RegisterSpendNtfn` seen at its return: the request is built and the
stream established; on failure the operation returns
(nil, nil, error) and spawns nothing; on success it makes a 1-buffered
spend channel and a 1-buffered error channel, runs `wg.Add(1)` and
spawns the worker. -/
def registerSpendNtfn (setupFn : SpendRequest → Except String Unit)
    (outpoint : Option Outpoint) (pkScript : Bytes) (heightHint : Int) :
    RegisterResult :=
  match setupFn (mkSpendRequest outpoint pkScript heightHint) with
  | .error e => { outChan := none, errChan := none, setupErr := some e,
                  workerSpawned := false, wgAdds := 0 }
  | .ok _ => { outChan := some { capacity := 1 },
               errChan := some { capacity := 1 }, setupErr := none,
               workerSpawned := true, wgAdds := 1 }

/-- `RegisterConfirmationsNtfn` seen at its return: same shape as the
spend registration, with a 1-buffered confirmation channel. -/
def registerConfirmationsNtfn (setupFn : ConfRequest → Except String Unit)
    (txid : Option Bytes) (pkScript : Bytes) (numConfs heightHint : Int) :
    RegisterResult :=
  match setupFn (mkConfRequest txid pkScript numConfs heightHint) with
  | .error e => { outChan := none, errChan := none, setupErr := some e,
                  workerSpawned := false, wgAdds := 0 }
  | .ok _ => { outChan := some { capacity := 1 },
               errChan := some { capacity := 1 }, setupErr := none,
               workerSpawned := true, wgAdds := 1 }

/-- `RegisterBlockEpochNtfn` seen at its return: the request carries no
parameters; on success the operation makes an unbuffered epoch channel
and a 1-buffered error channel, runs `wg.Add(1)` and spawns the
worker. -/
def registerBlockEpochNtfn (setupResult : Except String Unit) :
    RegisterResult :=
  match setupResult with
  | .error e => { outChan := none, errChan := none, setupErr := some e,
                  workerSpawned := false, wgAdds := 0 }
  | .ok _ => { outChan := some { capacity := 0 },
               errChan := some { capacity := 1 }, setupErr := none,
               workerSpawned := true, wgAdds := 1 }

/-- C4: for each of the three registration operations, a failed stream
establishment returns nil output channel, nil error channel and the
establishment error, spawning no worker; a successful establishment
returns a non-nil output channel, a non-nil error channel and a nil
immediate error. -/
theorem register_setup_results
    (sSetup : SpendRequest → Except String Unit)
    (cSetup : ConfRequest → Except String Unit)
    (bSetup : Except String Unit)
    (outpoint : Option Outpoint) (txid : Option Bytes) (pkScript : Bytes)
    (numConfs heightHint : Int) (e : String)
    (hs : sSetup (mkSpendRequest outpoint pkScript heightHint) = .error e)
    (hc : cSetup (mkConfRequest txid pkScript numConfs heightHint) = .error e)
    (hb : bSetup = .error e)
    (sSetupOk : SpendRequest → Except String Unit)
    (cSetupOk : ConfRequest → Except String Unit)
    (bSetupOk : Except String Unit)
    (hsOk : sSetupOk (mkSpendRequest outpoint pkScript heightHint) = .ok ())
    (hcOk : cSetupOk (mkConfRequest txid pkScript numConfs heightHint) = .ok ())
    (hbOk : bSetupOk = .ok ()) :
    registerSpendNtfn sSetup outpoint pkScript heightHint =
      { outChan := none, errChan := none, setupErr := some e,
        workerSpawned := false, wgAdds := 0 } ∧
    registerConfirmationsNtfn cSetup txid pkScript numConfs heightHint =
      { outChan := none, errChan := none, setupErr := some e,
        workerSpawned := false, wgAdds := 0 } ∧
    registerBlockEpochNtfn bSetup =
      { outChan := none, errChan := none, setupErr := some e,
        workerSpawned := false, wgAdds := 0 } ∧
    ((registerSpendNtfn sSetupOk outpoint pkScript heightHint).outChan.isSome ∧
      (registerSpendNtfn sSetupOk outpoint pkScript heightHint).errChan.isSome ∧
      (registerSpendNtfn sSetupOk outpoint pkScript heightHint).setupErr = none) ∧
    ((registerConfirmationsNtfn cSetupOk txid pkScript numConfs
        heightHint).outChan.isSome ∧
      (registerConfirmationsNtfn cSetupOk txid pkScript numConfs
        heightHint).errChan.isSome ∧
      (registerConfirmationsNtfn cSetupOk txid pkScript numConfs
        heightHint).setupErr = none) ∧
    ((registerBlockEpochNtfn bSetupOk).outChan.isSome ∧
      (registerBlockEpochNtfn bSetupOk).errChan.isSome ∧
      (registerBlockEpochNtfn bSetupOk).setupErr = none) := by
  refine ⟨?_, ?_, ?_, ?_, ?_, ?_⟩ <;>
    simp [registerSpendNtfn, registerConfirmationsNtfn,
          registerBlockEpochNtfn, hs, hc, hb, hsOk, hcOk, hbOk]

/-- Witness for C4 at concrete inputs: a failing and a succeeding setup
function for each operation. -/
theorem register_setup_results_witness :
    registerBlockEpochNtfn (.error "no conn") =
      { outChan := none, errChan := none, setupErr := some "no conn",
        workerSpawned := false, wgAdds := 0 } :=
  (register_setup_results (fun _ => .error "no conn")
      (fun _ => .error "no conn") (.error "no conn")
      none none [] 6 500000 "no conn" rfl rfl rfl
      (fun _ => .ok ()) (fun _ => .ok ()) (.ok ())
      rfl rfl rfl).2.2.1

/-- C10: height and count values cross the interface through unchecked
32-bit sign reinterpretation.  The requests carry
`uint32OfInt32 heightHint` and `uint32OfInt32 numConfs`, which maps a
negative `int32` to a value at least 2^31; the worker-delivered heights
are `int32OfUint32` of the received `uint32` (the epoch worker emits
`int32OfUint32 h`, `processSpendDetail` stores
`int32OfUint32 d.spendingHeight`), which maps a received height at
least 2^31 to a negative number. -/
theorem height_sign_reinterpretation
    (outpoint : Option Outpoint) (txid : Option Bytes) (pkScript : Bytes)
    (numConfs heightHint : Int) (h u : Nat) (choice : Nat → Bool) (n : Nat)
    (rest : List (Except String Nat))
    (hNeg : -2147483648 ≤ heightHint) (hNeg2 : heightHint < 0)
    (hBig : 2147483648 ≤ u) (hBig2 : u < 4294967296)
    (hSend : choice n = true) :
    (mkSpendRequest outpoint pkScript heightHint).heightHint =
      uint32OfInt32 heightHint ∧
    (mkConfRequest txid pkScript numConfs heightHint).heightHint =
      uint32OfInt32 heightHint ∧
    (mkConfRequest txid pkScript numConfs heightHint).numConfs =
      uint32OfInt32 numConfs ∧
    2147483648 ≤ uint32OfInt32 heightHint ∧
    epochWorker choice n (.ok h :: rest) =
      .out (int32OfUint32 h) :: epochWorker choice (n + 1) rest ∧
    int32OfUint32 u < 0 := by
  refine ⟨rfl, rfl, rfl, ?_, ?_, ?_⟩
  · unfold uint32OfInt32
    omega
  · simp [epochWorker, hSend]
  · unfold int32OfUint32
    rw [if_neg (by omega)]
    omega

/-- Witness for C10 at concrete inputs: height hint -1 is sent as
2^32 - 1 and received height 2^31 is delivered negative. -/
theorem height_sign_reinterpretation_witness :
    2147483648 ≤ uint32OfInt32 (-1) ∧ int32OfUint32 2147483648 < 0 :=
  ⟨(height_sign_reinterpretation none none [] 6 (-1) 0 2147483648
      (fun _ => true) 0 [] (by decide) (by decide) (by decide) (by decide)
      rfl).2.2.2.1,
   (height_sign_reinterpretation none none [] 6 (-1) 0 2147483648
      (fun _ => true) 0 [] (by decide) (by decide) (by decide) (by decide)
      rfl).2.2.2.2.2⟩

theorem errs_append {α : Type} (l1 l2 : List (Act α)) :
    errs (l1 ++ l2) = errs l1 ++ errs l2 := by
  induction l1 with
  | nil => rfl
  | cons a t ih => cases a <;> simp [errs, ih]

theorem outs_append {α : Type} (l1 l2 : List (Act α)) :
    outs (l1 ++ l2) = outs l1 ++ outs l2 := by
  induction l1 with
  | nil => rfl
  | cons a t ih => cases a <;> simp [outs, ih]

theorem dones_append {α : Type} (l1 l2 : List (Act α)) :
    dones (l1 ++ l2) = dones l1 + dones l2 := by
  induction l1 with
  | nil => simp [dones]
  | cons a t ih => cases a <;> simp [dones, ih] <;> omega

theorem errs_map_out {α : Type} (os : List α) :
    errs (os.map Act.out) = [] := by
  induction os <;> simp [errs, *]

theorem outs_map_out {α : Type} (os : List α) :
    outs (os.map Act.out) = os := by
  induction os <;> simp [outs, *]

theorem dones_map_out {α : Type} (os : List α) :
    dones (os.map Act.out) = 0 := by
  induction os <;> simp [dones, *]

/-- Every run of the confirmation worker either is still blocked with an
empty trace, or ends with a single error then the WaitGroup decrement,
or ends with a single confirmation then the WaitGroup decrement. -/
theorem confWorker_cases {T : Type} (d : Bytes → Except String T)
    (s : List (Except String ConfEvent)) :
    confWorker d s = [] ∨
    (∃ e, confWorker d s = [Act.err e, Act.wgDone]) ∨
    (∃ o, confWorker d s = [Act.out o, Act.wgDone]) := by
  induction s with
  | nil => exact Or.inl rfl
  | cons x rest ih =>
    cases x with
    | error e => exact Or.inr (Or.inl ⟨e, by simp [confWorker]⟩)
    | ok ev =>
      cases ev with
      | reorg => simpa [confWorker] using ih
      | unset =>
        exact Or.inr (Or.inl ⟨"conf event empty", by simp [confWorker]⟩)
      | unexpected =>
        exact Or.inr (Or.inl
          ⟨"conf event has unexpected type", by simp [confWorker]⟩)
      | conf c =>
        cases hTx : d c.rawTx with
        | error e => exact Or.inr (Or.inl ⟨e, by simp [confWorker, hTx]⟩)
        | ok tx =>
          cases hBh : newHash c.blockHash with
          | error e =>
            exact Or.inr (Or.inl ⟨e, by simp [confWorker, hTx, hBh]⟩)
          | ok bh =>
            exact Or.inr (Or.inr
              ⟨{ blockHeight := c.blockHeight, blockHash := bh,
                 tx := tx, txIndex := c.txIndex },
               by simp [confWorker, hTx, hBh]⟩)

/-- Every run of the spend worker either is still blocked with an empty
trace, or ends with a single error then the decrement, or ends with a
single spend detail then the decrement, or panics after running the
deferred decrement. -/
theorem spendWorker_cases {T : Type} (d : Bytes → Except String T)
    (s : List (Except String SpendEvent)) :
    spendWorker d s = ([], false) ∨
    (∃ e, spendWorker d s = ([Act.err e, Act.wgDone], false)) ∨
    (∃ o, spendWorker d s = ([Act.out o, Act.wgDone], false)) ∨
    spendWorker d s = ([Act.wgDone], true) := by
  induction s with
  | nil => exact Or.inl rfl
  | cons x rest ih =>
    cases x with
    | error e => exact Or.inr (Or.inl ⟨e, by simp [spendWorker]⟩)
    | ok ev =>
      cases ev with
      | reorg => simpa [spendWorker] using ih
      | unset => simpa [spendWorker] using ih
      | spend dd =>
        cases hP : processSpendDetail d dd with
        | panicNilDeref =>
          exact Or.inr (Or.inr (Or.inr (by simp [spendWorker, hP])))
        | failed e => exact Or.inr (Or.inl ⟨e, by simp [spendWorker, hP]⟩)
        | ok sd =>
          exact Or.inr (Or.inr (Or.inl ⟨sd, by simp [spendWorker, hP]⟩))

/-- Every run of the block-epoch worker is a sequence of delivered
heights followed by nothing (still blocked), by the decrement alone
(cancellation observed), or by a single error then the decrement. -/
theorem epochWorker_shape (choice : Nat → Bool) (n : Nat)
    (s : List (Except String Nat)) :
    (∃ os : List Int, epochWorker choice n s = os.map Act.out) ∨
    (∃ os : List Int,
      epochWorker choice n s = os.map Act.out ++ [Act.wgDone]) ∨
    (∃ (os : List Int) (e : String),
      epochWorker choice n s = os.map Act.out ++ [Act.err e, Act.wgDone]) := by
  induction s generalizing n with
  | nil => exact Or.inl ⟨[], rfl⟩
  | cons x rest ih =>
    cases x with
    | error e => exact Or.inr (Or.inr ⟨[], e, by simp [epochWorker]⟩)
    | ok h =>
      cases hC : choice n with
      | false => exact Or.inr (Or.inl ⟨[], by simp [epochWorker, hC]⟩)
      | true =>
        rcases ih (n + 1) with ⟨os, hos⟩ | ⟨os, hos⟩ | ⟨os, e, hos⟩
        · exact Or.inl ⟨int32OfUint32 h :: os, by simp [epochWorker, hC, hos]⟩
        · exact Or.inr (Or.inl
            ⟨int32OfUint32 h :: os, by simp [epochWorker, hC, hos]⟩)
        · exact Or.inr (Or.inr
            ⟨int32OfUint32 h :: os, e, by simp [epochWorker, hC, hos]⟩)

/-- C5: over a whole worker lifetime at most one message is written to
the error channel, every failure is terminal (an error is followed only
by the WaitGroup decrement, with no further writes to either channel),
the single-shot confirmation and spend workers write at most one value
to their output channel, and the block-epoch worker, which may deliver
many values, still writes at most one error. -/
theorem at_most_one_terminal_error {T1 T2 : Type}
    (d1 : Bytes → Except String T1) (s1 : List (Except String ConfEvent))
    (d2 : Bytes → Except String T2) (s2 : List (Except String SpendEvent))
    (choice : Nat → Bool) (n : Nat) (s3 : List (Except String Nat)) :
    (errs (confWorker d1 s1)).length ≤ 1 ∧
    (outs (confWorker d1 s1)).length ≤ 1 ∧
    (errs (spendWorker d2 s2).1).length ≤ 1 ∧
    (outs (spendWorker d2 s2).1).length ≤ 1 ∧
    (errs (epochWorker choice n s3)).length ≤ 1 ∧
    (∀ e, Act.err e ∈ confWorker d1 s1 →
      confWorker d1 s1 = [Act.err e, Act.wgDone]) ∧
    (∀ e, Act.err e ∈ (spendWorker d2 s2).1 →
      (spendWorker d2 s2).1 = [Act.err e, Act.wgDone]) ∧
    (∀ e, Act.err e ∈ epochWorker choice n s3 →
      ∃ os : List Int,
        epochWorker choice n s3 = os.map Act.out ++ [Act.err e, Act.wgDone]) := by
  refine ⟨?_, ?_, ?_, ?_, ?_, ?_, ?_, ?_⟩
  · rcases confWorker_cases d1 s1 with h | ⟨e, h⟩ | ⟨o, h⟩ <;>
      simp [h, errs]
  · rcases confWorker_cases d1 s1 with h | ⟨e, h⟩ | ⟨o, h⟩ <;>
      simp [h, outs]
  · rcases spendWorker_cases d2 s2 with h | ⟨e, h⟩ | ⟨o, h⟩ | h <;>
      simp [h, errs]
  · rcases spendWorker_cases d2 s2 with h | ⟨e, h⟩ | ⟨o, h⟩ | h <;>
      simp [h, outs]
  · rcases epochWorker_shape choice n s3 with ⟨os, h⟩ | ⟨os, h⟩ | ⟨os, e, h⟩ <;>
      simp [h, errs_append, errs_map_out, errs]
  · intro e hm
    rcases confWorker_cases d1 s1 with h | ⟨e1, h⟩ | ⟨o, h⟩ <;>
      rw [h] at hm ⊢ <;> simp_all
  · intro e hm
    rcases spendWorker_cases d2 s2 with h | ⟨e1, h⟩ | ⟨o, h⟩ | h <;>
      rw [h] at hm ⊢ <;> simp_all
  · intro e hm
    rcases epochWorker_shape choice n s3 with ⟨os, h⟩ | ⟨os, h⟩ | ⟨os, e1, h⟩ <;>
      rw [h] at hm <;> simp_all

/-- Witness for C5 at concrete inputs: a stream error on each of the
three subscriptions is reported once and is terminal. -/
theorem at_most_one_terminal_error_witness :
    confWorker (fun b => (Except.ok b.length : Except String Nat))
        [.error "recv failed"] = [Act.err "recv failed", Act.wgDone] :=
  (at_most_one_terminal_error
      (fun b => (Except.ok b.length : Except String Nat)) [.error "recv failed"]
      (fun b => (Except.ok b.length : Except String Nat)) [.error "recv failed"]
      (fun _ => true) 0 [.error "recv failed"]).2.2.2.2.2.1
    "recv failed" (by simp [confWorker])

/-- Modelled from the spec: the `sync.WaitGroup` owned by the client is
a counter incremented by `wg.Add(1)` at each worker spawn and
decremented by the deferred `wg.Done()` at each worker exit; its code
is the Go runtime, not part of this repository. -/
def waitGroupCounter (spawned exited : Nat) : Int :=
  (spawned : Int) - (exited : Int)

/-- Modelled from the spec: `WaitForFinished` calls `wg.Wait`, which
returns exactly when the WaitGroup counter is zero. -/
def waitForFinishedReturns (spawned exited : Nat) : Prop :=
  waitGroupCounter spawned exited = 0

/-- C6: each registration runs `wg.Add(1)` exactly when it spawns a
worker; every worker trace contains at most one WaitGroup decrement,
and whenever a worker has exited (its trace contains the decrement) the
decrement is the final action of the trace, on every exit path; hence
with registrations contributing one increment per spawned worker and
workers one decrement each on exit, `WaitForFinished` returns exactly
when every spawned worker has exited. -/
theorem worker_lifecycle {T1 T2 : Type}
    (d1 : Bytes → Except String T1) (s1 : List (Except String ConfEvent))
    (d2 : Bytes → Except String T2) (s2 : List (Except String SpendEvent))
    (choice : Nat → Bool) (n : Nat) (s3 : List (Except String Nat))
    (sSetup : SpendRequest → Except String Unit)
    (cSetup : ConfRequest → Except String Unit)
    (bSetup : Except String Unit)
    (outpoint : Option Outpoint) (txid : Option Bytes) (pkScript : Bytes)
    (numConfs heightHint : Int) (spawned exited : Nat)
    (_hle : exited ≤ spawned) :
    (registerSpendNtfn sSetup outpoint pkScript heightHint).wgAdds =
      (if (registerSpendNtfn sSetup outpoint pkScript
            heightHint).workerSpawned then 1 else 0) ∧
    (registerConfirmationsNtfn cSetup txid pkScript numConfs
        heightHint).wgAdds =
      (if (registerConfirmationsNtfn cSetup txid pkScript numConfs
            heightHint).workerSpawned then 1 else 0) ∧
    (registerBlockEpochNtfn bSetup).wgAdds =
      (if (registerBlockEpochNtfn bSetup).workerSpawned then 1 else 0) ∧
    dones (confWorker d1 s1) ≤ 1 ∧
    (Act.wgDone ∈ confWorker d1 s1 →
      ∃ pre, confWorker d1 s1 = pre ++ [Act.wgDone] ∧ dones pre = 0) ∧
    dones (spendWorker d2 s2).1 ≤ 1 ∧
    (Act.wgDone ∈ (spendWorker d2 s2).1 →
      ∃ pre, (spendWorker d2 s2).1 = pre ++ [Act.wgDone] ∧ dones pre = 0) ∧
    dones (epochWorker choice n s3) ≤ 1 ∧
    (Act.wgDone ∈ epochWorker choice n s3 →
      ∃ pre, epochWorker choice n s3 = pre ++ [Act.wgDone] ∧
        dones pre = 0) ∧
    (waitForFinishedReturns spawned exited ↔ exited = spawned) := by
  refine ⟨?_, ?_, ?_, ?_, ?_, ?_, ?_, ?_, ?_, ?_⟩
  · cases h : sSetup (mkSpendRequest outpoint pkScript heightHint) <;>
      simp [registerSpendNtfn, h]
  · cases h : cSetup (mkConfRequest txid pkScript numConfs heightHint) <;>
      simp [registerConfirmationsNtfn, h]
  · cases bSetup <;> simp [registerBlockEpochNtfn]
  · rcases confWorker_cases d1 s1 with h | ⟨e, h⟩ | ⟨o, h⟩ <;>
      simp [h, dones]
  · intro hm
    rcases confWorker_cases d1 s1 with h | ⟨e, h⟩ | ⟨o, h⟩
    · rw [h] at hm; simp at hm
    · exact ⟨[Act.err e], by simp [h, dones]⟩
    · exact ⟨[Act.out o], by simp [h, dones]⟩
  · rcases spendWorker_cases d2 s2 with h | ⟨e, h⟩ | ⟨o, h⟩ | h <;>
      simp [h, dones]
  · intro hm
    rcases spendWorker_cases d2 s2 with h | ⟨e, h⟩ | ⟨o, h⟩ | h
    · rw [h] at hm; simp at hm
    · exact ⟨[Act.err e], by simp [h, dones]⟩
    · exact ⟨[Act.out o], by simp [h, dones]⟩
    · exact ⟨[], by simp [h, dones]⟩
  · rcases epochWorker_shape choice n s3 with ⟨os, h⟩ | ⟨os, h⟩ | ⟨os, e, h⟩ <;>
      simp [h, dones_append, dones_map_out, dones]
  · intro hm
    rcases epochWorker_shape choice n s3 with ⟨os, h⟩ | ⟨os, h⟩ | ⟨os, e, h⟩
    · rw [h] at hm; simp at hm
    · exact ⟨os.map Act.out, by
        simp [h, dones_append, dones_map_out, dones]⟩
    · exact ⟨os.map Act.out ++ [Act.err e], by
        simp [h, dones_append, dones_map_out, dones]⟩
  · unfold waitForFinishedReturns waitGroupCounter
    omega

/-- Witness for C6 at concrete inputs: a worker that exits on a stream
error runs its deferred decrement last, and the wait returns exactly
when the two spawned workers have both exited. -/
theorem worker_lifecycle_witness :
    (∃ pre, confWorker (fun b => (Except.ok b.length : Except String Nat))
        [.error "eof"] = pre ++ [Act.wgDone] ∧ dones pre = 0) ∧
    (waitForFinishedReturns 2 2 ↔ 2 = 2) :=
  ⟨(worker_lifecycle
      (fun b => (Except.ok b.length : Except String Nat)) [.error "eof"]
      (fun b => (Except.ok b.length : Except String Nat)) []
      (fun _ => true) 0 [] (fun _ => .ok ()) (fun _ => .ok ()) (.ok ())
      none none [] 6 0 2 2 (by decide)).2.2.2.2.1 (by simp [confWorker]),
   (worker_lifecycle
      (fun b => (Except.ok b.length : Except String Nat)) [.error "eof"]
      (fun b => (Except.ok b.length : Except String Nat)) []
      (fun _ => true) 0 [] (fun _ => .ok ()) (fun _ => .ok ()) (.ok ())
      none none [] 6 0 2 2 (by decide)).2.2.2.2.2.2.2.2.2⟩

/-- C8 counterexample: the claim that every subscription kind reports
an explicit error on a nil (unset) variant fails for the spend worker,
which silently skips a nil-variant event — at a concrete input the
worker writes nothing to either channel and keeps looping. -/
theorem spend_nil_variant_not_an_error :
    spendWorker (fun b => (Except.ok b.length : Except String Nat))
        [.ok .unset] = ([], false) ∧
    errs (spendWorker (fun b => (Except.ok b.length : Except String Nat))
        [.ok .unset]).1 = [] := by
  refine ⟨?_, ?_⟩ <;> simp [spendWorker, errs]

/-- C8 amended: only the confirmation worker reports a distinct
explicit error for a nil (unset) variant ("conf event empty") or a
variant outside its expected set ("conf event has unexpected type");
the spend worker silently skips every event that is not the spend
variant, including nil ones, and continues its loop. -/
theorem unset_variant_handling_by_kind {T1 T2 : Type}
    (d1 : Bytes → Except String T1) (d2 : Bytes → Except String T2)
    (rest1 : List (Except String ConfEvent))
    (rest2 : List (Except String SpendEvent)) :
    confWorker d1 (.ok .unset :: rest1) =
      [.err "conf event empty", .wgDone] ∧
    confWorker d1 (.ok .unexpected :: rest1) =
      [.err "conf event has unexpected type", .wgDone] ∧
    spendWorker d2 (.ok .unset :: rest2) = spendWorker d2 rest2 ∧
    spendWorker d2 (.ok .reorg :: rest2) = spendWorker d2 rest2 := by
  refine ⟨?_, ?_, ?_, ?_⟩ <;> simp [confWorker, spendWorker]

end LndClient
